import Mathlib

/-!
Shallow embedding of `fdisk/mbr.py`: a codec for the x86 Master Boot Record.
Byte buffers are `List Nat` whose elements are below 256; Python exceptions
are modelled by the `Except PyErr` monad (an `AssertionError` from a failed
`assert`, a `ValueError` from `bytes(...)` range checking or a bad argument,
a `TypeError` from `bytes(None)`, a `struct.error` from `struct.pack` /
`struct.unpack`, an `IndexError` from list indexing).
-/

/-- The Python exceptions the codec can raise. -/
inductive PyErr where
  | assertionError
  | valueError
  | typeError
  | structError
  | indexError
deriving DecidableEq, Repr

/-- Python `bytes([...])`: every element must lie in `range(0, 256)`,
otherwise a `ValueError` is raised. -/
def pyBytes (l : List Nat) : Except PyErr (List Nat) :=
  if l.all (fun x => x < 256) then .ok l else .error .valueError

/-- `struct.pack("<I", n)`: four little-endian bytes; `struct.error`
when the value does not fit an unsigned 32-bit integer. -/
def packLE32 (n : Nat) : Except PyErr (List Nat) :=
  if n < 4294967296 then
    .ok [n % 256, n / 256 % 256, n / 65536 % 256, n / 16777216 % 256]
  else .error .structError

/-- `struct.unpack("<I", b)`: requires exactly four bytes. -/
def unpackLE32 (b : List Nat) : Except PyErr Nat :=
  if b.length = 4 then
    .ok (b.getD 0 0 + 256 * b.getD 1 0 + 65536 * b.getD 2 0 + 16777216 * b.getD 3 0)
  else .error .structError

/-- `struct.unpack("<H", b)`: requires exactly two bytes. -/
def unpackLE16 (b : List Nat) : Except PyErr Nat :=
  if b.length = 2 then .ok (b.getD 0 0 + 256 * b.getD 1 0)
  else .error .structError

/-- The `PartitionId` enumeration from the source.  In Python the members
`EX_FAT`, `HPFS` and `QNX2` are aliases of `NT_NTFS` (all equal `0x07`), so
they denote the same enumeration member; the inductive type therefore has
one constructor per distinct member. -/
inductive PartitionId where
  | EMPTY
  | FAT12
  | XENIX_ROOT
  | XENIX_USR
  | DOS_FAT16_LT_32M
  | DOS_EXTENDED
  | DOS_FAT16
  | NT_NTFS
  | OS2_LT_V13
  | OS2_BOOT_MANAGER
  | WIN95_FAT32
  | WIN95_FAT32_LBA
  | WIN95_FAT16_LBA
  | WIN95_EXT_LBA
  | HIDDEN_FAT12
  | HIDDEN_DOS_FAT16_LT_32M
  | HIDDEN_DOS_FAT16
  | HIDDEN_HPFS
  | HIDDEN_WIN95_FAT32
  | HIDDEN_WIN95_FAT32_LBA
  | HIDDEN_WIN95_FAT16_LBA
  | PLAN_9
  | LINUX_SWAP
  | LINUX
  | LINUX_EXTENDED
  | LINUX_LLVM
  | HIDDEN_LINUX
  | FREEBSD
  | OPENBSD
  | NETBSD
  | HFS_HFS_PLUS
  | GPT
  | EFI
  | LINUX_RAID
deriving DecidableEq, Repr

/-- The byte value of each enumeration member. -/
def PartitionId.value : PartitionId → Nat
  | .EMPTY => 0x00
  | .FAT12 => 0x01
  | .XENIX_ROOT => 0x02
  | .XENIX_USR => 0x03
  | .DOS_FAT16_LT_32M => 0x04
  | .DOS_EXTENDED => 0x05
  | .DOS_FAT16 => 0x06
  | .NT_NTFS => 0x07
  | .OS2_LT_V13 => 0x08
  | .OS2_BOOT_MANAGER => 0x0a
  | .WIN95_FAT32 => 0x0b
  | .WIN95_FAT32_LBA => 0x0c
  | .WIN95_FAT16_LBA => 0x0e
  | .WIN95_EXT_LBA => 0x0f
  | .HIDDEN_FAT12 => 0x11
  | .HIDDEN_DOS_FAT16_LT_32M => 0x14
  | .HIDDEN_DOS_FAT16 => 0x16
  | .HIDDEN_HPFS => 0x17
  | .HIDDEN_WIN95_FAT32 => 0x1b
  | .HIDDEN_WIN95_FAT32_LBA => 0x1c
  | .HIDDEN_WIN95_FAT16_LBA => 0x1e
  | .PLAN_9 => 0x39
  | .LINUX_SWAP => 0x82
  | .LINUX => 0x83
  | .LINUX_EXTENDED => 0x85
  | .LINUX_LLVM => 0x8e
  | .HIDDEN_LINUX => 0x93
  | .FREEBSD => 0xa5
  | .OPENBSD => 0xa6
  | .NETBSD => 0xa9
  | .HFS_HFS_PLUS => 0xaf
  | .GPT => 0xee
  | .EFI => 0xef
  | .LINUX_RAID => 0xfd

/-- The members in definition order (Python `PartitionId.__members__`,
with aliases collapsed onto their canonical member). -/
def PartitionId.members : List PartitionId :=
  [.EMPTY, .FAT12, .XENIX_ROOT, .XENIX_USR, .DOS_FAT16_LT_32M, .DOS_EXTENDED,
   .DOS_FAT16, .NT_NTFS, .OS2_LT_V13, .OS2_BOOT_MANAGER, .WIN95_FAT32,
   .WIN95_FAT32_LBA, .WIN95_FAT16_LBA, .WIN95_EXT_LBA, .HIDDEN_FAT12,
   .HIDDEN_DOS_FAT16_LT_32M, .HIDDEN_DOS_FAT16, .HIDDEN_HPFS,
   .HIDDEN_WIN95_FAT32, .HIDDEN_WIN95_FAT32_LBA, .HIDDEN_WIN95_FAT16_LBA,
   .PLAN_9, .LINUX_SWAP, .LINUX, .LINUX_EXTENDED, .LINUX_LLVM, .HIDDEN_LINUX,
   .FREEBSD, .OPENBSD, .NETBSD, .HFS_HFS_PLUS, .GPT, .EFI, .LINUX_RAID]

/-- The membership test and lookup `part_type in PartitionId.__members__.values()`
followed by `PartitionId(part_type)`: the first member (in definition order)
whose value is the byte, or `none` when the byte is unregistered. -/
def PartitionId.ofByte (b : Nat) : Option PartitionId :=
  PartitionId.members.find? (fun p => p.value == b)

/-- Legacy Cylinder Head Sector addressing (`CHSAddress` dataclass). -/
structure CHSAddress where
  cylinder : Nat
  head : Nat
  sector : Nat
deriving DecidableEq, Repr

/-- `CHSAddress.parse`: `head = b[0]`, `sector = b[1] & 0x3F`,
`cylinder = b[2] | ((b[1] >> 6) << 8)`.  Callers always pass exactly
three bytes. -/
def CHSAddress.parse (b : List Nat) : CHSAddress :=
  { head := b.getD 0 0
    sector := b.getD 1 0 &&& 0x3F
    cylinder := b.getD 2 0 ||| ((b.getD 1 0 >>> 6) <<< 8) }

/-- `CHSAddress.__bytes__`: asserts `0 <= cylinder <= 1024`,
`0 <= head <= 255` and `0 <= sector <= 63` (lower bounds are vacuous over
`Nat`), then builds `bytes([head, sector | (cylinder >> 8) << 6,
cylinder & 0xFF])`, whose range check may still raise a `ValueError`. -/
def CHSAddress.toBytes (a : CHSAddress) : Except PyErr (List Nat) :=
  if a.cylinder ≤ 1024 ∧ a.head ≤ 255 ∧ a.sector ≤ 63 then
    pyBytes [a.head, a.sector ||| ((a.cylinder >>> 8) <<< 6), a.cylinder &&& 0xFF]
  else .error .assertionError

/-- The in-range predicate of the spec for a CHS triple:
cylinder below 1024, head below 256, sector below 64. -/
def CHSAddress.inRange (a : CHSAddress) : Bool :=
  a.cylinder ≤ 1023 && a.head ≤ 255 && a.sector ≤ 63

set_option maxRecDepth 10000

set_option maxHeartbeats 1000000

theorem bit_facts_b1 : ∀ b1 < 256,
    (b1 &&& 63) ||| ((b1 >>> 6) <<< 6) = b1 ∧ b1 &&& 63 < 64 ∧ b1 >>> 6 < 4 := by
  decide

theorem bit_facts_hi : ∀ b2 < 256, ∀ t < 4,
    (b2 ||| (t <<< 8)) &&& 255 = b2 ∧ (b2 ||| (t <<< 8)) >>> 8 = t ∧
    b2 ||| (t <<< 8) < 1024 := by
  decide

theorem bit_facts_lo : ∀ s < 64, ∀ t < 4,
    s ||| (t <<< 6) < 256 ∧ (s ||| (t <<< 6)) &&& 63 = s ∧
    (s ||| (t <<< 6)) >>> 6 = t := by
  decide

theorem bit_facts_cyl : ∀ c < 1024,
    (c &&& 255) ||| ((c >>> 8) <<< 8) = c ∧ c &&& 255 < 256 ∧ c >>> 8 < 4 := by
  decide

theorem bit_facts_1024 : ∀ s < 64, ¬ (s ||| (1024 >>> 8) <<< 6) < 256 := by
  decide

/-- Encoding an in-range CHS address succeeds and yields the packed triple. -/
theorem chs_toBytes_ok (a : CHSAddress) (h : a.inRange = true) :
    a.toBytes = .ok [a.head, a.sector ||| ((a.cylinder >>> 8) <<< 6), a.cylinder &&& 255] := by
  simp only [CHSAddress.inRange, Bool.and_eq_true, decide_eq_true_eq] at h
  obtain ⟨⟨hc, hh⟩, hs⟩ := h
  have hlo := bit_facts_lo a.sector (by omega) (a.cylinder >>> 8)
    (bit_facts_cyl a.cylinder (by omega)).2.2
  have hcy := bit_facts_cyl a.cylinder (by omega)
  simp only [CHSAddress.toBytes, pyBytes, List.all_cons, List.all_nil]
  rw [if_pos (by omega)]
  rw [if_pos (by simp only [Bool.and_true, Bool.and_eq_true, decide_eq_true_eq]; omega)]

/-- `CHSAddress.parse` on an explicit three-byte list, unfolded. -/
theorem chs_parse_triple (x y z : Nat) :
    CHSAddress.parse [x, y, z] = ⟨z ||| ((y >>> 6) <<< 8), x, y &&& 63⟩ := rfl

/-- Decoding the packed triple of an in-range CHS address gives it back. -/
theorem chs_parse_inv (a : CHSAddress) (h : a.inRange = true) :
    CHSAddress.parse [a.head, a.sector ||| ((a.cylinder >>> 8) <<< 6), a.cylinder &&& 255] = a := by
  simp only [CHSAddress.inRange, Bool.and_eq_true, decide_eq_true_eq] at h
  obtain ⟨⟨hc, hh⟩, hs⟩ := h
  have hcy := bit_facts_cyl a.cylinder (by omega)
  have hlo := bit_facts_lo a.sector (by omega) (a.cylinder >>> 8) hcy.2.2
  rw [chs_parse_triple]
  cases a with
  | mk c hd s =>
    simp only [CHSAddress.mk.injEq] at *
    refine ⟨?_, trivial, hlo.2.1⟩
    rw [hlo.2.2, hcy.1]

/-- Parsing any three bytes yields automatically in-range components. -/
theorem chs_parse_inRange (b0 b1 b2 : Nat) (h0 : b0 < 256) (h1 : b1 < 256)
    (h2 : b2 < 256) : (CHSAddress.parse [b0, b1, b2]).inRange = true := by
  have hb1 := bit_facts_b1 b1 h1
  have hhi := bit_facts_hi b2 h2 (b1 >>> 6) hb1.2.2
  rw [chs_parse_triple]
  simp only [CHSAddress.inRange, Bool.and_eq_true, decide_eq_true_eq]
  omega

/-- Re-encoding the CHS address parsed from any three bytes reproduces
those bytes exactly. -/
theorem chs_parse_then_toBytes (b0 b1 b2 : Nat) (h0 : b0 < 256) (h1 : b1 < 256)
    (h2 : b2 < 256) :
    (CHSAddress.parse [b0, b1, b2]).toBytes = .ok [b0, b1, b2] := by
  have hb1 := bit_facts_b1 b1 h1
  have hhi := bit_facts_hi b2 h2 (b1 >>> 6) hb1.2.2
  have := chs_toBytes_ok (CHSAddress.parse [b0, b1, b2])
    (chs_parse_inRange b0 b1 b2 h0 h1 h2)
  rw [this, chs_parse_triple]
  simp only
  rw [hhi.2.1, hhi.1, hb1.1]

/-- Encoding a CHS address fails exactly when a component exceeds the
spec ranges; the failure is an assertion error except at cylinder = 1024,
which slips past the off-by-one assert but is caught by the byte range
check of `bytes(...)`. -/
theorem chs_toBytes_fails_iff (a : CHSAddress) :
    (∃ e, a.toBytes = .error e) ↔
      (1023 < a.cylinder ∨ 255 < a.head ∨ 63 < a.sector) := by
  constructor
  · rintro ⟨e, he⟩
    by_contra hcon
    push_neg at hcon
    have hin : a.inRange = true := by
      simp only [CHSAddress.inRange, Bool.and_eq_true, decide_eq_true_eq]
      omega
    rw [chs_toBytes_ok a hin] at he
    exact Except.noConfusion he
  · intro h
    unfold CHSAddress.toBytes
    by_cases hass : a.cylinder ≤ 1024 ∧ a.head ≤ 255 ∧ a.sector ≤ 63
    · rw [if_pos hass]
      have hc : a.cylinder = 1024 := by omega
      have h1024 := bit_facts_1024 a.sector (by omega)
      have hcond : ([a.head, a.sector ||| ((a.cylinder >>> 8) <<< 6),
          a.cylinder &&& 255].all (fun x => x < 256)) ≠ true := by
        simp only [List.all_cons, List.all_nil, Bool.and_true, hc]
        intro hall
        simp only [Bool.and_eq_true, decide_eq_true_eq] at hall
        exact h1024 hall.2.1
      unfold pyBytes
      rw [if_neg hcond]
      exact ⟨.valueError, rfl⟩
    · rw [if_neg hass]
      exact ⟨.assertionError, rfl⟩

/-- Logical block addressing (`LogicalBlockAddress` dataclass). -/
structure LogicalBlockAddress where
  sector : Nat
deriving DecidableEq, Repr

/-- `byte_offset`: sector times the 512-byte sector size. -/
def LogicalBlockAddress.byte_offset (l : LogicalBlockAddress) : Nat :=
  l.sector * 512

/-- `LogicalBlockAddress.__bytes__`: `struct.pack("<I", sector)`. -/
def LogicalBlockAddress.toBytes (l : LogicalBlockAddress) : Except PyErr (List Nat) :=
  packLE32 l.sector

/-- The `partition_type` field (`Union[int, PartitionId]`): either a
registry member or a raw integer byte. -/
inductive PartitionType where
  | member (p : PartitionId)
  | raw (b : Nat)
deriving DecidableEq, Repr

/-- `int(partition_type)`: the underlying integer. -/
def PartitionType.toInt : PartitionType → Nat
  | .member p => p.value
  | .raw b => b

/-- Python `==` on `Union[int, PartitionId]` values: an `IntEnum` member
compares equal to its integer value, so equality is by underlying integer. -/
def PartitionType.pyEq (a b : PartitionType) : Prop :=
  a.toInt = b.toInt

/-- The registry lookup of `PartitionEntry.read`:
`if part_type in PartitionId.__members__.values(): part_type = PartitionId(part_type)`. -/
def decodePartType (b : Nat) : PartitionType :=
  match PartitionId.ofByte b with
  | some p => PartitionType.member p
  | none => PartitionType.raw b

/-- The `PartitionEntry` dataclass. -/
structure PartitionEntry where
  bootable : Bool
  partition_type : PartitionType
  start_block_address : LogicalBlockAddress
  sector_count : Nat
  start_chs : Option CHSAddress
  end_chs : Option CHSAddress
deriving DecidableEq, Repr

/-- Derived `end_block_address` property. -/
def PartitionEntry.end_block_address (e : PartitionEntry) : LogicalBlockAddress :=
  if e.sector_count = 0 then e.start_block_address
  else ⟨e.start_block_address.sector + e.sector_count - 1⟩

/-- Derived `byte_count` property. -/
def PartitionEntry.byte_count (e : PartitionEntry) : Nat :=
  e.sector_count * 512

/-- `PartitionEntry.read` on a byte buffer: `None` when fewer than 16
bytes are available; `struct.unpack("<BxxxBxxxII", raw)` then requires
exactly 16 bytes. -/
def PartitionEntry.read (raw : List Nat) : Except PyErr (Option PartitionEntry) :=
  if raw.length < 16 then .ok none
  else if raw.length ≠ 16 then .error .structError
  else
    .ok (some
      { bootable := raw.getD 0 0 &&& 0x80 != 0
        partition_type := decodePartType (raw.getD 4 0)
        start_block_address := ⟨raw.getD 8 0 + 256 * raw.getD 9 0 +
          65536 * raw.getD 10 0 + 16777216 * raw.getD 11 0⟩
        sector_count := raw.getD 12 0 + 256 * raw.getD 13 0 +
          65536 * raw.getD 14 0 + 16777216 * raw.getD 15 0
        start_chs := some (CHSAddress.parse ((raw.drop 1).take 3))
        end_chs := some (CHSAddress.parse ((raw.drop 5).take 3)) })

/-- `bytes(x)` on an optional CHS address: `bytes(None)` raises `TypeError`. -/
def optChsBytes : Option CHSAddress → Except PyErr (List Nat)
  | none => .error .typeError
  | some c => c.toBytes

/-- `PartitionEntry.__bytes__`: attribute byte, packed start CHS, type
byte, packed end CHS, LBA, sector count; components are evaluated left
to right and each may raise. -/
def PartitionEntry.toBytes (e : PartitionEntry) : Except PyErr (List Nat) := do
  let sc ← optChsBytes e.start_chs
  let tb ← pyBytes [e.partition_type.toInt]
  let ec ← optChsBytes e.end_chs
  let lb ← e.start_block_address.toBytes
  let cnt ← packLE32 e.sector_count
  return [if e.bootable then 0x80 else 0x00] ++ sc ++ tb ++ ec ++ lb ++ cnt

/-- Python `==` on `PartitionEntry` dataclasses: fieldwise, with the
partition type compared by its integer value (`IntEnum` semantics). -/
def PartitionEntry.pyEq (a b : PartitionEntry) : Prop :=
  a.bootable = b.bootable ∧ a.partition_type.pyEq b.partition_type ∧
  a.start_block_address = b.start_block_address ∧
  a.sector_count = b.sector_count ∧
  a.start_chs = b.start_chs ∧ a.end_chs = b.end_chs

/-- In-range test on an optional CHS field: an absent field cannot encode. -/
def chsFieldOk : Option CHSAddress → Bool
  | none => false
  | some c => c.inRange

/-- Well-formedness per the data model: CHS fields present and in range,
type byte below 256, LBA and sector count unsigned 32-bit. -/
def PartitionEntry.wf (e : PartitionEntry) : Bool :=
  chsFieldOk e.start_chs && chsFieldOk e.end_chs &&
  e.partition_type.toInt < 256 &&
  e.start_block_address.sector < 4294967296 && e.sector_count < 4294967296

/-- A successful registry lookup returns a member carrying the looked-up
byte value. -/
theorem partitionId_ofByte_value (b : Nat) (p : PartitionId)
    (h : PartitionId.ofByte b = some p) : p.value = b := by
  have := List.find?_some h
  simpa using this

/-- The decoded partition type always carries the raw byte as its
integer value, whether or not the byte is registered. -/
theorem decodePartType_toInt (b : Nat) : (decodePartType b).toInt = b := by
  unfold decodePartType
  cases hb : PartitionId.ofByte b with
  | none => rfl
  | some p =>
    simp only [PartitionType.toInt]
    exact partitionId_ofByte_value b p hb

/-- `struct.pack("<I", n)` on an in-range value, unfolded. -/
theorem packLE32_eq (n : Nat) (h : n < 4294967296) :
    packLE32 n = .ok [n % 256, n / 256 % 256, n / 65536 % 256, n / 16777216 % 256] := by
  unfold packLE32
  rw [if_pos h]

/-- Packing a value assembled from four bytes recovers those bytes. -/
theorem packLE32_digits (c0 c1 c2 c3 : Nat) (h0 : c0 < 256) (h1 : c1 < 256)
    (h2 : c2 < 256) (h3 : c3 < 256) :
    packLE32 (c0 + 256 * c1 + 65536 * c2 + 16777216 * c3) = .ok [c0, c1, c2, c3] := by
  unfold packLE32
  rw [if_pos (by omega)]
  have e0 : (c0 + 256 * c1 + 65536 * c2 + 16777216 * c3) % 256 = c0 := by omega
  have e1 : (c0 + 256 * c1 + 65536 * c2 + 16777216 * c3) / 256 % 256 = c1 := by omega
  have e2 : (c0 + 256 * c1 + 65536 * c2 + 16777216 * c3) / 65536 % 256 = c2 := by omega
  have e3 : (c0 + 256 * c1 + 65536 * c2 + 16777216 * c3) / 16777216 % 256 = c3 := by omega
  rw [e0, e1, e2, e3]

/-- Unpacking the four packed digits recovers the packed value. -/
theorem le32_digits_sum (n : Nat) (h : n < 4294967296) :
    n % 256 + 256 * (n / 256 % 256) + 65536 * (n / 65536 % 256) +
      16777216 * (n / 16777216 % 256) = n := by omega

theorem pyBytes_one (b : Nat) (h : b < 256) : pyBytes [b] = .ok [b] := by
  unfold pyBytes
  rw [if_pos (by simp [h])]

/-- `PartitionEntry.read` on an explicit sixteen-byte list, unfolded. -/
theorem entry_read_sixteen (x0 x1 x2 x3 x4 x5 x6 x7 x8 x9 x10 x11 x12 x13 x14 x15 : Nat) :
    PartitionEntry.read [x0, x1, x2, x3, x4, x5, x6, x7, x8, x9, x10, x11, x12, x13, x14, x15] =
      .ok (some
        { bootable := x0 &&& 128 != 0
          partition_type := decodePartType x4
          start_block_address := ⟨x8 + 256 * x9 + 65536 * x10 + 16777216 * x11⟩
          sector_count := x12 + 256 * x13 + 65536 * x14 + 16777216 * x15
          start_chs := some (CHSAddress.parse [x1, x2, x3])
          end_chs := some (CHSAddress.parse [x5, x6, x7]) }) := rfl

/-- Encoding a well-formed partition entry succeeds, producing the
sixteen-byte layout of the format comment. -/
theorem entry_toBytes_explicit (e : PartitionEntry) (sc ec : CHSAddress)
    (hsc : e.start_chs = some sc) (hec : e.end_chs = some ec) (hwf : e.wf = true) :
    e.toBytes = .ok [(if e.bootable then 128 else 0),
      sc.head, sc.sector ||| ((sc.cylinder >>> 8) <<< 6), sc.cylinder &&& 255,
      e.partition_type.toInt,
      ec.head, ec.sector ||| ((ec.cylinder >>> 8) <<< 6), ec.cylinder &&& 255,
      e.start_block_address.sector % 256, e.start_block_address.sector / 256 % 256,
      e.start_block_address.sector / 65536 % 256, e.start_block_address.sector / 16777216 % 256,
      e.sector_count % 256, e.sector_count / 256 % 256,
      e.sector_count / 65536 % 256, e.sector_count / 16777216 % 256] := by
  simp only [PartitionEntry.wf, hsc, hec, chsFieldOk, Bool.and_eq_true,
    decide_eq_true_eq] at hwf
  obtain ⟨⟨⟨⟨hscr, hecr⟩, hpt⟩, hlba⟩, hcnt⟩ := hwf
  unfold PartitionEntry.toBytes
  rw [hsc, hec]
  simp only [optChsBytes]
  rw [chs_toBytes_ok sc hscr, chs_toBytes_ok ec hecr, pyBytes_one _ hpt]
  unfold LogicalBlockAddress.toBytes
  rw [packLE32_eq _ hlba, packLE32_eq _ hcnt]
  rfl

/-- The attribute byte written for the bootable flag decodes back to it. -/
theorem boot_byte_inv (b : Bool) : ((if b then (128:Nat) else 0) &&& 128 != 0) = b := by
  cases b <;> rfl

/-- Core round-trip for well-formed partition entries: encoding succeeds
with sixteen bytes and decoding those bytes gives a Python-equal entry. -/
theorem entry_roundtrip_core (e : PartitionEntry) (hwf : e.wf = true) :
    ∃ bs e2, e.toBytes = .ok bs ∧ bs.length = 16 ∧
      PartitionEntry.read bs = .ok (some e2) ∧ e2.pyEq e := by
  cases hsc : e.start_chs with
  | none => simp [PartitionEntry.wf, hsc, chsFieldOk] at hwf
  | some sc =>
  cases hec : e.end_chs with
  | none => simp [PartitionEntry.wf, hsc, hec, chsFieldOk] at hwf
  | some ec =>
  have hwf' := hwf
  simp only [PartitionEntry.wf, hsc, hec, chsFieldOk, Bool.and_eq_true,
    decide_eq_true_eq] at hwf'
  obtain ⟨⟨⟨⟨hscr, hecr⟩, hpt⟩, hlba⟩, hcnt⟩ := hwf'
  refine ⟨_, _, entry_toBytes_explicit e sc ec hsc hec hwf, rfl,
    entry_read_sixteen _ _ _ _ _ _ _ _ _ _ _ _ _ _ _ _, ?_⟩
  refine ⟨boot_byte_inv e.bootable, ?_, ?_, ?_, ?_, ?_⟩
  · show (decodePartType e.partition_type.toInt).toInt = e.partition_type.toInt
    exact decodePartType_toInt _
  · show LogicalBlockAddress.mk _ = e.start_block_address
    have : e.start_block_address = ⟨e.start_block_address.sector⟩ := rfl
    rw [this]
    simp only [LogicalBlockAddress.mk.injEq]
    exact le32_digits_sum _ hlba
  · exact le32_digits_sum _ hcnt
  · rw [hsc, chs_parse_inv sc hscr]
  · rw [hec, chs_parse_inv ec hecr]

/-- Core byte-level round-trip: decoding any sixteen bytes and re-encoding
reproduces bytes one through fifteen, and the attribute byte collapses to
the bootable bit. -/
theorem entry_read_then_toBytes_core
    (x0 x1 x2 x3 x4 x5 x6 x7 x8 x9 x10 x11 x12 x13 x14 x15 : Nat)
    (_h0 : x0 < 256) (h1 : x1 < 256) (h2 : x2 < 256) (h3 : x3 < 256)
    (h4 : x4 < 256) (h5 : x5 < 256) (h6 : x6 < 256) (h7 : x7 < 256)
    (h8 : x8 < 256) (h9 : x9 < 256) (h10 : x10 < 256) (h11 : x11 < 256)
    (h12 : x12 < 256) (h13 : x13 < 256) (h14 : x14 < 256) (h15 : x15 < 256) :
    ∃ f, PartitionEntry.read
        [x0, x1, x2, x3, x4, x5, x6, x7, x8, x9, x10, x11, x12, x13, x14, x15] =
        .ok (some f) ∧
      f.toBytes = .ok ((if x0 &&& 128 ≠ 0 then 128 else 0) ::
        [x1, x2, x3, x4, x5, x6, x7, x8, x9, x10, x11, x12, x13, x14, x15]) := by
  refine ⟨_, entry_read_sixteen x0 x1 x2 x3 x4 x5 x6 x7 x8 x9 x10 x11 x12 x13 x14 x15, ?_⟩
  unfold PartitionEntry.toBytes
  simp only [optChsBytes]
  rw [chs_parse_then_toBytes x1 x2 x3 h1 h2 h3, chs_parse_then_toBytes x5 x6 x7 h5 h6 h7]
  rw [decodePartType_toInt, pyBytes_one _ h4]
  unfold LogicalBlockAddress.toBytes
  rw [packLE32_digits x8 x9 x10 x11 h8 h9 h10 h11,
    packLE32_digits x12 x13 x14 x15 h12 h13 h14 h15]
  have hbyte0 : (if ((x0 &&& 128 != 0) : Bool) then (128:Nat) else 0) =
      (if x0 &&& 128 ≠ 0 then 128 else 0) := by
    by_cases hx : x0 &&& 128 = 0 <;> simp [hx]
  simp only [hbyte0]
  rfl

def UNIQUE_ID_OFFSET : Nat := 0x1B8

def PARTITION_OFFSETS : List Nat := [0x1BE, 0x1CE, 0x1DE, 0x1EE]

def VALID_BOOT_SECTOR_OFFSET : Nat := 0x1FE

def VALID_MARKER : Nat := 0xaa55

def MBR_SIZE : Nat := 512

/-- `struct.pack("<H", n)`: two little-endian bytes. -/
def packLE16 (n : Nat) : Except PyErr (List Nat) :=
  if n < 65536 then .ok [n % 256, n / 256 % 256] else .error .structError

/-- The `MasterBootRecord` dataclass. -/
structure MasterBootRecord where
  unique_id : Option Nat
  partitions : List (Option PartitionEntry)
deriving DecidableEq, Repr

/-- `MasterBootRecord.read` on a byte buffer: unpack the disk signature
at `0x1B8`, decode the four slot slices, unpack the marker at `0x1FE`,
and return the record, or `None` when the marker is wrong and not
ignored.  Each unpack raises `struct.error` on a short slice. -/
def MasterBootRecord.read (data : List Nat) (ignore_valid_marker : Bool) :
    Except PyErr (Option MasterBootRecord) := do
  let uid ← unpackLE32 ((data.drop UNIQUE_ID_OFFSET).take 4)
  let parts ← PARTITION_OFFSETS.mapM
    (fun off => PartitionEntry.read ((data.drop off).take 16))
  let marker ← unpackLE16 ((data.drop VALID_BOOT_SECTOR_OFFSET).take 2)
  if ignore_valid_marker || marker == VALID_MARKER then
    return some ⟨some uid, parts⟩
  else
    return none

/-- Writing `d` at `offset` into `buf`: the `BytesIO` seek-and-write,
which always stays within the 512-byte buffer here. -/
def listWrite (buf : List Nat) (offset : Nat) (d : List Nat) : List Nat :=
  buf.take offset ++ d ++ buf.drop (offset + d.length)

/-- The slot-writing loop of `MasterBootRecord.__bytes__`:
`PARTITION_OFFSETS[i]` raises `IndexError` past the fourth slot, and
`bytes(partition)` raises `TypeError` on an absent (`None`) slot. -/
def writeSlots (buf : List Nat) (i : Nat) :
    List (Option PartitionEntry) → Except PyErr (List Nat)
  | [] => .ok buf
  | none :: _ => if i < 4 then .error .typeError else .error .indexError
  | some e :: rest =>
    if i < 4 then do
      let eb ← e.toBytes
      writeSlots (listWrite buf (PARTITION_OFFSETS.getD i 0) eb) (i + 1) rest
    else .error .indexError

/-- `MasterBootRecord.__bytes__`: 512 zero bytes, then the disk signature
(`unique_id or 0`) at `0x1B8`, the slots at their offsets, and the valid
marker at `0x1FE`. -/
def MasterBootRecord.toBytes (m : MasterBootRecord) : Except PyErr (List Nat) := do
  let sig ← packLE32 (match m.unique_id with | some v => v | none => 0)
  let buf ← writeSlots (listWrite (List.replicate 512 0) UNIQUE_ID_OFFSET sig) 0 m.partitions
  let mk ← packLE16 VALID_MARKER
  return listWrite buf VALID_BOOT_SECTOR_OFFSET mk

/-- Python `==` on optional partition entries. -/
def optEntryPyEq : Option PartitionEntry → Option PartitionEntry → Prop
  | none, none => True
  | some a, some b => a.pyEq b
  | none, some _ => False
  | some _, none => False

/-- Python `==` on `MasterBootRecord` dataclasses. -/
def MasterBootRecord.pyEq (a b : MasterBootRecord) : Prop :=
  a.unique_id = b.unique_id ∧ List.Forall₂ optEntryPyEq a.partitions b.partitions

deriving instance DecidableEq for Except

theorem except_ok_bind {α β : Type} (a : α) (f : α → Except PyErr β) :
    ((Except.ok a : Except PyErr α) >>= f) = f a := rfl

/-- Splitting a block of zeros in three. -/
theorem replicate_split (n a b c : Nat) (h : n = a + (b + c)) :
    List.replicate n (0:Nat) =
      List.replicate a 0 ++ (List.replicate b 0 ++ List.replicate c 0) := by
  subst h
  rw [List.replicate_add, List.replicate_add]

/-- Writing data of the length of the middle block, right after the
prefix, replaces the middle block. -/
theorem listWrite_aligned (A B C d : List Nat) (off : Nat)
    (hA : A.length = off) (hB : B.length = d.length) :
    listWrite (A ++ (B ++ C)) off d = A ++ (d ++ C) := by
  unfold listWrite
  have ht : (A ++ (B ++ C)).take off = A := List.take_left' hA
  have hd : (A ++ (B ++ C)).drop (off + d.length) = C := by
    rw [← List.append_assoc]
    exact List.drop_left' (by rw [List.length_append, hA, hB])
  rw [ht, hd, List.append_assoc]

/-- Writing data of the length of the suffix, right after the prefix,
replaces the suffix. -/
theorem listWrite_end (A B d : List Nat) (off : Nat)
    (hA : A.length = off) (hB : B.length = d.length) :
    listWrite (A ++ B) off d = A ++ d := by
  unfold listWrite
  rw [List.take_left' hA]
  rw [List.drop_eq_nil_of_le (by rw [List.length_append, hA, hB])]
  simp

/-- The byte layout produced by a successful `MasterBootRecord.__bytes__`:
440 zero bytes of boot code area, the packed signature, two reserved zero
bytes, the four slots, and the `0x55 0xAA` marker. -/
def assemble (sig p0 p1 p2 p3 : List Nat) : List Nat :=
  List.replicate 440 0 ++ (sig ++ (List.replicate 2 0 ++
    (p0 ++ (p1 ++ (p2 ++ (p3 ++ [0x55, 0xAA]))))))

theorem writeSlots_nil (buf : List Nat) (i : Nat) :
    writeSlots buf i [] = .ok buf := rfl

theorem writeSlots_cons (buf : List Nat) (i : Nat) (hi : i < 4)
    (e : PartitionEntry) (p : List Nat) (he : e.toBytes = .ok p)
    (rest : List (Option PartitionEntry)) :
    writeSlots buf i (some e :: rest) =
      writeSlots (listWrite buf (PARTITION_OFFSETS.getD i 0) p) (i + 1) rest := by
  rw [writeSlots, if_pos hi, he]
  rfl

/-- Unpacking a well-formed entry's fields from its well-formedness. -/
theorem entry_wf_parts (e : PartitionEntry) (hwf : e.wf = true) :
    ∃ sc ec, e.start_chs = some sc ∧ e.end_chs = some ec ∧
      sc.inRange = true ∧ ec.inRange = true ∧
      e.partition_type.toInt < 256 ∧
      e.start_block_address.sector < 4294967296 ∧ e.sector_count < 4294967296 := by
  cases hsc : e.start_chs with
  | none => simp [PartitionEntry.wf, hsc, chsFieldOk] at hwf
  | some sc =>
    cases hec : e.end_chs with
    | none => simp [PartitionEntry.wf, hsc, hec, chsFieldOk] at hwf
    | some ec =>
      simp only [PartitionEntry.wf, hsc, hec, chsFieldOk, Bool.and_eq_true,
        decide_eq_true_eq] at hwf
      exact ⟨sc, ec, rfl, rfl, hwf.1.1.1.1, hwf.1.1.1.2, hwf.1.1.2, hwf.1.2, hwf.2⟩

/-- Decoding the sixteen bytes encoded from a well-formed entry gives a
Python-equal entry. -/
theorem decoded_pyEq (e : PartitionEntry) (sc ec : CHSAddress)
    (hsc : e.start_chs = some sc) (hec : e.end_chs = some ec)
    (hscr : sc.inRange = true) (hecr : ec.inRange = true)
    (hlba : e.start_block_address.sector < 4294967296)
    (hcnt : e.sector_count < 4294967296) :
    PartitionEntry.pyEq
      { bootable := (if e.bootable then (128:Nat) else 0) &&& 128 != 0
        partition_type := decodePartType e.partition_type.toInt
        start_block_address := ⟨e.start_block_address.sector % 256 +
          256 * (e.start_block_address.sector / 256 % 256) +
          65536 * (e.start_block_address.sector / 65536 % 256) +
          16777216 * (e.start_block_address.sector / 16777216 % 256)⟩
        sector_count := e.sector_count % 256 +
          256 * (e.sector_count / 256 % 256) +
          65536 * (e.sector_count / 65536 % 256) +
          16777216 * (e.sector_count / 16777216 % 256)
        start_chs := some (CHSAddress.parse
          [sc.head, sc.sector ||| ((sc.cylinder >>> 8) <<< 6), sc.cylinder &&& 255])
        end_chs := some (CHSAddress.parse
          [ec.head, ec.sector ||| ((ec.cylinder >>> 8) <<< 6), ec.cylinder &&& 255]) }
      e := by
  refine ⟨boot_byte_inv e.bootable, ?_, ?_, ?_, ?_, ?_⟩
  · show (decodePartType e.partition_type.toInt).toInt = e.partition_type.toInt
    exact decodePartType_toInt _
  · show LogicalBlockAddress.mk _ = e.start_block_address
    have he : e.start_block_address = ⟨e.start_block_address.sector⟩ := rfl
    rw [he]
    simp only [LogicalBlockAddress.mk.injEq]
    exact le32_digits_sum _ hlba
  · exact le32_digits_sum _ hcnt
  · rw [hsc, chs_parse_inv sc hscr]
  · rw [hec, chs_parse_inv ec hecr]


/-- The sixteen bytes produced by encoding a well-formed entry whose CHS
fields hold `sc` and `ec`. -/
def encodedEntry (e : PartitionEntry) (sc ec : CHSAddress) : List Nat :=
  [(if e.bootable then 128 else 0),
   sc.head, sc.sector ||| ((sc.cylinder >>> 8) <<< 6), sc.cylinder &&& 255,
   e.partition_type.toInt,
   ec.head, ec.sector ||| ((ec.cylinder >>> 8) <<< 6), ec.cylinder &&& 255,
   e.start_block_address.sector % 256, e.start_block_address.sector / 256 % 256,
   e.start_block_address.sector / 65536 % 256, e.start_block_address.sector / 16777216 % 256,
   e.sector_count % 256, e.sector_count / 256 % 256,
   e.sector_count / 65536 % 256, e.sector_count / 16777216 % 256]

/-- The four bytes of the packed disk signature. -/
def encodedSig (u : Nat) : List Nat :=
  [u % 256, u / 256 % 256, u / 65536 % 256, u / 16777216 % 256]

/-- The little-endian value of the four packed signature digits. -/
def le32val (u : Nat) : Nat :=
  u % 256 + 256 * (u / 256 % 256) + 65536 * (u / 65536 % 256) +
    16777216 * (u / 16777216 % 256)

theorem le32val_eq (u : Nat) (hu : u < 4294967296) : le32val u = u :=
  le32_digits_sum u hu

/-- The entry obtained by decoding `encodedEntry e sc ec`. -/
def decodedOf (e : PartitionEntry) (sc ec : CHSAddress) : PartitionEntry :=
  { bootable := (if e.bootable then (128:Nat) else 0) &&& 128 != 0
    partition_type := decodePartType e.partition_type.toInt
    start_block_address := ⟨e.start_block_address.sector % 256 +
      256 * (e.start_block_address.sector / 256 % 256) +
      65536 * (e.start_block_address.sector / 65536 % 256) +
      16777216 * (e.start_block_address.sector / 16777216 % 256)⟩
    sector_count := e.sector_count % 256 +
      256 * (e.sector_count / 256 % 256) +
      65536 * (e.sector_count / 65536 % 256) +
      16777216 * (e.sector_count / 16777216 % 256)
    start_chs := some (CHSAddress.parse
      [sc.head, sc.sector ||| ((sc.cylinder >>> 8) <<< 6), sc.cylinder &&& 255])
    end_chs := some (CHSAddress.parse
      [ec.head, ec.sector ||| ((ec.cylinder >>> 8) <<< 6), ec.cylinder &&& 255]) }

theorem decodedOf_pyEq (e : PartitionEntry) (sc ec : CHSAddress)
    (hsc : e.start_chs = some sc) (hec : e.end_chs = some ec)
    (hscr : sc.inRange = true) (hecr : ec.inRange = true)
    (hlba : e.start_block_address.sector < 4294967296)
    (hcnt : e.sector_count < 4294967296) :
    (decodedOf e sc ec).pyEq e :=
  decoded_pyEq e sc ec hsc hec hscr hecr hlba hcnt

/-- Splitting a block of zeros in two. -/
theorem replicate_split2 (n a b : Nat) (h : n = a + b) :
    List.replicate n (0:Nat) = List.replicate a 0 ++ List.replicate b 0 := by
  subst h
  rw [List.replicate_add]

/-- Decoding the sixteen bytes of an encoded entry yields `decodedOf`. -/
theorem encodedEntry_read (e : PartitionEntry) (sc ec : CHSAddress) :
    PartitionEntry.read (encodedEntry e sc ec) = .ok (some (decodedOf e sc ec)) :=
  entry_read_sixteen _ _ _ _ _ _ _ _ _ _ _ _ _ _ _ _

/-- Unpacking the packed signature digits gives their little-endian value. -/
theorem encodedSig_unpack (u : Nat) :
    unpackLE32 (encodedSig u) = .ok (le32val u) := rfl

/-- A successful `MasterBootRecord.__bytes__` run produces the assembled
512-byte layout. -/
theorem mbr_toBytes_assembled (u : Nat) (hu : u < 4294967296)
    (e0 e1 e2 e3 : PartitionEntry) (p0 p1 p2 p3 : List Nat)
    (hb0 : e0.toBytes = .ok p0) (hl0 : p0.length = 16)
    (hb1 : e1.toBytes = .ok p1) (hl1 : p1.length = 16)
    (hb2 : e2.toBytes = .ok p2) (hl2 : p2.length = 16)
    (hb3 : e3.toBytes = .ok p3) (hl3 : p3.length = 16) :
    MasterBootRecord.toBytes ⟨some u, [some e0, some e1, some e2, some e3]⟩ =
      .ok (assemble (encodedSig u) p0 p1 p2 p3) := by
  have w1 : listWrite (List.replicate 512 0) UNIQUE_ID_OFFSET (encodedSig u) =
      List.replicate 440 0 ++ (encodedSig u ++ List.replicate 68 0) := by
    rw [show UNIQUE_ID_OFFSET = 440 from rfl]
    rw [replicate_split 512 440 4 68 (by norm_num)]
    exact listWrite_aligned _ _ _ _ _ (by simp) (by simp [encodedSig])
  have w2 : listWrite (List.replicate 440 0 ++ (encodedSig u ++ List.replicate 68 0)) 446 p0 =
      (List.replicate 440 0 ++ (encodedSig u ++ List.replicate 2 0)) ++
        (p0 ++ List.replicate 50 0) := by
    rw [replicate_split 68 2 16 50 (by norm_num)]
    rw [show List.replicate 440 (0:Nat) ++ (encodedSig u ++ (List.replicate 2 0 ++
        (List.replicate 16 0 ++ List.replicate 50 0))) =
        (List.replicate 440 0 ++ (encodedSig u ++ List.replicate 2 0)) ++
          (List.replicate 16 0 ++ List.replicate 50 0) from by
      simp [List.append_assoc]]
    exact listWrite_aligned _ _ _ _ _ (by simp [encodedSig]) (by simp [hl0])
  have w3 : listWrite ((List.replicate 440 0 ++ (encodedSig u ++ List.replicate 2 0)) ++
        (p0 ++ List.replicate 50 0)) 462 p1 =
      ((List.replicate 440 0 ++ (encodedSig u ++ List.replicate 2 0)) ++ p0) ++
        (p1 ++ List.replicate 34 0) := by
    rw [replicate_split2 50 16 34 (by norm_num)]
    rw [show (List.replicate 440 (0:Nat) ++ (encodedSig u ++ List.replicate 2 0)) ++
        (p0 ++ (List.replicate 16 0 ++ List.replicate 34 0)) =
        ((List.replicate 440 0 ++ (encodedSig u ++ List.replicate 2 0)) ++ p0) ++
          (List.replicate 16 0 ++ List.replicate 34 0) from by
      simp [List.append_assoc]]
    exact listWrite_aligned _ _ _ _ _ (by simp [encodedSig, hl0]) (by simp [hl1])
  have w4 : listWrite (((List.replicate 440 0 ++ (encodedSig u ++ List.replicate 2 0)) ++ p0) ++
        (p1 ++ List.replicate 34 0)) 478 p2 =
      (((List.replicate 440 0 ++ (encodedSig u ++ List.replicate 2 0)) ++ p0) ++ p1) ++
        (p2 ++ List.replicate 18 0) := by
    rw [replicate_split2 34 16 18 (by norm_num)]
    rw [show ((List.replicate 440 (0:Nat) ++ (encodedSig u ++ List.replicate 2 0)) ++ p0) ++
        (p1 ++ (List.replicate 16 0 ++ List.replicate 18 0)) =
        (((List.replicate 440 0 ++ (encodedSig u ++ List.replicate 2 0)) ++ p0) ++ p1) ++
          (List.replicate 16 0 ++ List.replicate 18 0) from by
      simp [List.append_assoc]]
    exact listWrite_aligned _ _ _ _ _ (by simp [encodedSig, hl0, hl1]) (by simp [hl2])
  have w5 : listWrite ((((List.replicate 440 0 ++ (encodedSig u ++ List.replicate 2 0)) ++ p0) ++ p1) ++
        (p2 ++ List.replicate 18 0)) 494 p3 =
      ((((List.replicate 440 0 ++ (encodedSig u ++ List.replicate 2 0)) ++ p0) ++ p1) ++ p2) ++
        (p3 ++ List.replicate 2 0) := by
    rw [replicate_split2 18 16 2 (by norm_num)]
    rw [show (((List.replicate 440 (0:Nat) ++ (encodedSig u ++ List.replicate 2 0)) ++ p0) ++ p1) ++
        (p2 ++ (List.replicate 16 0 ++ List.replicate 2 0)) =
        ((((List.replicate 440 0 ++ (encodedSig u ++ List.replicate 2 0)) ++ p0) ++ p1) ++ p2) ++
          (List.replicate 16 0 ++ List.replicate 2 0) from by
      simp [List.append_assoc]]
    exact listWrite_aligned _ _ _ _ _ (by simp [encodedSig, hl0, hl1, hl2]) (by simp [hl3])
  have w6 : listWrite (((((List.replicate 440 0 ++ (encodedSig u ++ List.replicate 2 0)) ++ p0) ++ p1) ++ p2) ++
        (p3 ++ List.replicate 2 0)) VALID_BOOT_SECTOR_OFFSET [85, 170] =
      (((((List.replicate 440 0 ++ (encodedSig u ++ List.replicate 2 0)) ++ p0) ++ p1) ++ p2) ++ p3) ++
        [85, 170] := by
    rw [show VALID_BOOT_SECTOR_OFFSET = 510 from rfl]
    rw [show ((((List.replicate 440 (0:Nat) ++ (encodedSig u ++ List.replicate 2 0)) ++ p0) ++ p1) ++ p2) ++
        (p3 ++ List.replicate 2 0) =
        (((((List.replicate 440 0 ++ (encodedSig u ++ List.replicate 2 0)) ++ p0) ++ p1) ++ p2) ++ p3) ++
          List.replicate 2 0 from by
      simp [List.append_assoc]]
    exact listWrite_end _ _ _ _ (by simp [encodedSig, hl0, hl1, hl2, hl3]) (by simp)
  simp only [MasterBootRecord.toBytes]
  rw [show packLE32 u = .ok (encodedSig u) from packLE32_eq u hu]
  simp only [except_ok_bind]
  rw [w1]
  rw [writeSlots_cons _ 0 (by norm_num) e0 _ hb0]
  rw [show PARTITION_OFFSETS.getD 0 0 = 446 from rfl]
  rw [w2]
  rw [writeSlots_cons _ (0+1) (by norm_num) e1 _ hb1]
  rw [show PARTITION_OFFSETS.getD (0+1) 0 = 462 from rfl]
  rw [w3]
  rw [writeSlots_cons _ (0+1+1) (by norm_num) e2 _ hb2]
  rw [show PARTITION_OFFSETS.getD (0+1+1) 0 = 478 from rfl]
  rw [w4]
  rw [writeSlots_cons _ (0+1+1+1) (by norm_num) e3 _ hb3]
  rw [show PARTITION_OFFSETS.getD (0+1+1+1) 0 = 494 from rfl]
  rw [w5]
  rw [writeSlots_nil]
  simp only [except_ok_bind]
  rw [show packLE16 VALID_MARKER = .ok [85, 170] from rfl]
  simp only [except_ok_bind]
  rw [w6]
  show Except.ok _ = Except.ok _
  congr 1
  simp [assemble, List.append_assoc]

/-- Reading the assembled 512-byte layout: the signature, the four slot
slices and the marker come back out, and the marker test succeeds. -/
theorem mbr_read_assembled (ig : Bool) (sig p0 p1 p2 p3 : List Nat)
    (u : Nat) (q0 q1 q2 q3 : Option PartitionEntry)
    (hs : sig.length = 4) (hl0 : p0.length = 16) (hl1 : p1.length = 16)
    (hl2 : p2.length = 16) (hl3 : p3.length = 16)
    (hu : unpackLE32 sig = .ok u)
    (hr0 : PartitionEntry.read p0 = .ok q0) (hr1 : PartitionEntry.read p1 = .ok q1)
    (hr2 : PartitionEntry.read p2 = .ok q2) (hr3 : PartitionEntry.read p3 = .ok q3) :
    MasterBootRecord.read (assemble sig p0 p1 p2 p3) ig =
      .ok (some ⟨some u, [q0, q1, q2, q3]⟩) := by
  have s440 : ((assemble sig p0 p1 p2 p3).drop 440).take 4 = sig := by
    rw [show (assemble sig p0 p1 p2 p3).drop 440 =
        sig ++ (List.replicate 2 0 ++ (p0 ++ (p1 ++ (p2 ++ (p3 ++ [85, 170]))))) from
      List.drop_left' (by simp)]
    exact List.take_left' hs
  have hF0 : assemble sig p0 p1 p2 p3 =
      (List.replicate 440 0 ++ (sig ++ List.replicate 2 0)) ++
        (p0 ++ (p1 ++ (p2 ++ (p3 ++ [85, 170])))) := by
    simp [assemble, List.append_assoc]
  have s446 : ((assemble sig p0 p1 p2 p3).drop 446).take 16 = p0 := by
    rw [hF0]
    rw [List.drop_left' (by simp [hs])]
    exact List.take_left' hl0
  have hF1 : assemble sig p0 p1 p2 p3 =
      ((List.replicate 440 0 ++ (sig ++ List.replicate 2 0)) ++ p0) ++
        (p1 ++ (p2 ++ (p3 ++ [85, 170]))) := by
    simp [assemble, List.append_assoc]
  have s462 : ((assemble sig p0 p1 p2 p3).drop 462).take 16 = p1 := by
    rw [hF1]
    rw [List.drop_left' (by simp [hs, hl0])]
    exact List.take_left' hl1
  have hF2 : assemble sig p0 p1 p2 p3 =
      (((List.replicate 440 0 ++ (sig ++ List.replicate 2 0)) ++ p0) ++ p1) ++
        (p2 ++ (p3 ++ [85, 170])) := by
    simp [assemble, List.append_assoc]
  have s478 : ((assemble sig p0 p1 p2 p3).drop 478).take 16 = p2 := by
    rw [hF2]
    rw [List.drop_left' (by simp [hs, hl0, hl1])]
    exact List.take_left' hl2
  have hF3 : assemble sig p0 p1 p2 p3 =
      ((((List.replicate 440 0 ++ (sig ++ List.replicate 2 0)) ++ p0) ++ p1) ++ p2) ++
        (p3 ++ [85, 170]) := by
    simp [assemble, List.append_assoc]
  have s494 : ((assemble sig p0 p1 p2 p3).drop 494).take 16 = p3 := by
    rw [hF3]
    rw [List.drop_left' (by simp [hs, hl0, hl1, hl2])]
    exact List.take_left' hl3
  have hF4 : assemble sig p0 p1 p2 p3 =
      (((((List.replicate 440 0 ++ (sig ++ List.replicate 2 0)) ++ p0) ++ p1) ++ p2) ++ p3) ++
        [85, 170] := by
    simp [assemble, List.append_assoc]
  have s510 : ((assemble sig p0 p1 p2 p3).drop 510).take 2 = [85, 170] := by
    rw [hF4]
    rw [List.drop_left' (by simp [hs, hl0, hl1, hl2, hl3])]
    rfl
  simp only [MasterBootRecord.read, UNIQUE_ID_OFFSET, PARTITION_OFFSETS,
    VALID_BOOT_SECTOR_OFFSET]
  rw [show (0x1B8 : Nat) = 440 from rfl, s440, hu]
  simp only [except_ok_bind]
  simp only [List.mapM_cons, List.mapM_nil]
  rw [show (0x1BE : Nat) = 446 from rfl, s446, hr0]
  rw [show (0x1CE : Nat) = 462 from rfl, s462, hr1]
  rw [show (0x1DE : Nat) = 478 from rfl, s478, hr2]
  rw [show (0x1EE : Nat) = 494 from rfl, s494, hr3]
  simp only [except_ok_bind]
  rw [show (0x1FE : Nat) = 510 from rfl, s510]
  rw [show unpackLE16 [85, 170] = .ok 43605 from rfl]
  simp only [except_ok_bind]
  simp [VALID_MARKER]
  rfl

/-- Core round-trip for a record with a present signature and four
present well-formed slots: encoding succeeds and decoding the encoder's
own output returns a populated, Python-equal record. -/
theorem mbr_roundtrip_core (u : Nat) (e0 e1 e2 e3 : PartitionEntry)
    (hu : u < 4294967296) (h0 : e0.wf = true) (h1 : e1.wf = true)
    (h2 : e2.wf = true) (h3 : e3.wf = true) :
    ∃ bs m2,
      MasterBootRecord.toBytes ⟨some u, [some e0, some e1, some e2, some e3]⟩ = .ok bs ∧
      MasterBootRecord.read bs false = .ok (some m2) ∧
      m2.pyEq ⟨some u, [some e0, some e1, some e2, some e3]⟩ := by
  obtain ⟨sc0, ec0, hsc0, hec0, hscr0, hecr0, hpt0, hlba0, hcnt0⟩ := entry_wf_parts e0 h0
  obtain ⟨sc1, ec1, hsc1, hec1, hscr1, hecr1, hpt1, hlba1, hcnt1⟩ := entry_wf_parts e1 h1
  obtain ⟨sc2, ec2, hsc2, hec2, hscr2, hecr2, hpt2, hlba2, hcnt2⟩ := entry_wf_parts e2 h2
  obtain ⟨sc3, ec3, hsc3, hec3, hscr3, hecr3, hpt3, hlba3, hcnt3⟩ := entry_wf_parts e3 h3
  have henc := mbr_toBytes_assembled u hu e0 e1 e2 e3
    (encodedEntry e0 sc0 ec0) (encodedEntry e1 sc1 ec1)
    (encodedEntry e2 sc2 ec2) (encodedEntry e3 sc3 ec3)
    (entry_toBytes_explicit e0 sc0 ec0 hsc0 hec0 h0) rfl
    (entry_toBytes_explicit e1 sc1 ec1 hsc1 hec1 h1) rfl
    (entry_toBytes_explicit e2 sc2 ec2 hsc2 hec2 h2) rfl
    (entry_toBytes_explicit e3 sc3 ec3 hsc3 hec3 h3) rfl
  have hdec := mbr_read_assembled false (encodedSig u)
    (encodedEntry e0 sc0 ec0) (encodedEntry e1 sc1 ec1)
    (encodedEntry e2 sc2 ec2) (encodedEntry e3 sc3 ec3)
    (le32val u) (some (decodedOf e0 sc0 ec0)) (some (decodedOf e1 sc1 ec1))
    (some (decodedOf e2 sc2 ec2)) (some (decodedOf e3 sc3 ec3))
    rfl rfl rfl rfl rfl (encodedSig_unpack u)
    (encodedEntry_read e0 sc0 ec0) (encodedEntry_read e1 sc1 ec1)
    (encodedEntry_read e2 sc2 ec2) (encodedEntry_read e3 sc3 ec3)
  refine ⟨_, _, henc, hdec, ?_, ?_⟩
  · show some (le32val u) = some u
    rw [le32val_eq u hu]
  · refine List.Forall₂.cons ?_ (List.Forall₂.cons ?_ (List.Forall₂.cons ?_
      (List.Forall₂.cons ?_ List.Forall₂.nil)))
    · exact decodedOf_pyEq e0 sc0 ec0 hsc0 hec0 hscr0 hecr0 hlba0 hcnt0
    · exact decodedOf_pyEq e1 sc1 ec1 hsc1 hec1 hscr1 hecr1 hlba1 hcnt1
    · exact decodedOf_pyEq e2 sc2 ec2 hsc2 hec2 hscr2 hecr2 hlba2 hcnt2
    · exact decodedOf_pyEq e3 sc3 ec3 hsc3 hec3 hscr3 hecr3 hlba3 hcnt3

/-- Any exactly-sixteen-byte slice decodes to a present entry. -/
theorem entry_read_of_len (raw : List Nat) (h : raw.length = 16) :
    ∃ f, PartitionEntry.read raw = .ok (some f) := by
  unfold PartitionEntry.read
  rw [if_neg (by omega), if_neg (by omega)]
  exact ⟨_, rfl⟩

/-- Indexing into a drop-take slice is indexing into the buffer. -/
theorem getD_slice (data : List Nat) (off i k : Nat) (h : i < k) :
    ((data.drop off).take k).getD i 0 = data.getD (off + i) 0 := by
  simp [List.getD_eq_getElem?_getD, List.getElem?_take_of_lt h, List.getElem?_drop]

/-- Reading any 512-byte buffer: the slot slices always decode to present
entries, and the outcome is a populated record exactly when the marker
test passes. -/
theorem mbr_read_structure (data : List Nat) (hlen : data.length = 512) (ig : Bool) :
    ∃ u f0 f1 f2 f3, MasterBootRecord.read data ig =
      .ok (if ig || ((data.getD 510 0 + 256 * data.getD 511 0) == VALID_MARKER)
        then some ⟨some u, [some f0, some f1, some f2, some f3]⟩ else none) := by
  have slice_len : ∀ off k, off + k ≤ 512 → ((data.drop off).take k).length = k := by
    intro off k h
    simp only [List.length_take, List.length_drop, hlen]
    omega
  obtain ⟨f0, hf0⟩ := entry_read_of_len ((data.drop 446).take 16) (slice_len 446 16 (by norm_num))
  obtain ⟨f1, hf1⟩ := entry_read_of_len ((data.drop 462).take 16) (slice_len 462 16 (by norm_num))
  obtain ⟨f2, hf2⟩ := entry_read_of_len ((data.drop 478).take 16) (slice_len 478 16 (by norm_num))
  obtain ⟨f3, hf3⟩ := entry_read_of_len ((data.drop 494).take 16) (slice_len 494 16 (by norm_num))
  have huid : unpackLE32 ((data.drop 440).take 4) =
      .ok (((data.drop 440).take 4).getD 0 0 + 256 * ((data.drop 440).take 4).getD 1 0 +
        65536 * ((data.drop 440).take 4).getD 2 0 +
        16777216 * ((data.drop 440).take 4).getD 3 0) := by
    unfold unpackLE32
    rw [if_pos (slice_len 440 4 (by norm_num))]
  have hmk : unpackLE16 ((data.drop 510).take 2) =
      .ok (data.getD 510 0 + 256 * data.getD 511 0) := by
    unfold unpackLE16
    rw [if_pos (slice_len 510 2 (by norm_num))]
    rw [getD_slice data 510 0 2 (by norm_num), getD_slice data 510 1 2 (by norm_num)]
  refine ⟨((data.drop 440).take 4).getD 0 0 + 256 * ((data.drop 440).take 4).getD 1 0 +
    65536 * ((data.drop 440).take 4).getD 2 0 + 16777216 * ((data.drop 440).take 4).getD 3 0,
    f0, f1, f2, f3, ?_⟩
  simp only [MasterBootRecord.read, UNIQUE_ID_OFFSET, PARTITION_OFFSETS,
    VALID_BOOT_SECTOR_OFFSET]
  rw [show (0x1B8 : Nat) = 440 from rfl, huid]
  simp only [except_ok_bind]
  simp only [List.mapM_cons, List.mapM_nil]
  rw [show (0x1BE : Nat) = 446 from rfl, hf0]
  rw [show (0x1CE : Nat) = 462 from rfl, hf1]
  rw [show (0x1DE : Nat) = 478 from rfl, hf2]
  rw [show (0x1EE : Nat) = 494 from rfl, hf3]
  simp only [except_ok_bind]
  rw [show (0x1FE : Nat) = 510 from rfl, hmk]
  simp only [except_ok_bind]
  split
  · rfl
  · rfl

theorem getD_mem_lt (data : List Nat) (i : Nat) (hi : i < data.length)
    (hbytes : ∀ x ∈ data, x < 256) : data.getD i 0 < 256 := by
  have hx : data.getD i 0 = data[i] := by
    rw [List.getD_eq_getElem?_getD, List.getElem?_eq_getElem hi]
    rfl
  rw [hx]
  exact hbytes _ (List.getElem_mem hi)

/-- The all-zero partition entry, as decoded from sixteen zero bytes. -/
def zeroEntry : PartitionEntry :=
  ⟨false, .member .EMPTY, ⟨0⟩, 0, some ⟨0, 0, 0⟩, some ⟨0, 0, 0⟩⟩

/-- C2: `CHSAddress.__bytes__` fails (with a range error: a failed assert
or the `bytes(...)` range check) exactly when a component is out of range
(cylinder above 1023, head above 255, or sector above 63); in particular
encoding `CHSAddress(1024, 0, 0)`, `CHSAddress(0, 256, 0)` and
`CHSAddress(0, 0, 64)` each fail rather than producing bytes. -/
theorem c2_chs_encode_range :
    (∀ c h s : Nat, (∃ e, CHSAddress.toBytes ⟨c, h, s⟩ = .error e) ↔
      (1023 < c ∨ 255 < h ∨ 63 < s)) ∧
    (∃ e, CHSAddress.toBytes ⟨1024, 0, 0⟩ = .error e) ∧
    (∃ e, CHSAddress.toBytes ⟨0, 256, 0⟩ = .error e) ∧
    (∃ e, CHSAddress.toBytes ⟨0, 0, 64⟩ = .error e) := by
  refine ⟨fun c h s => chs_toBytes_fails_iff ⟨c, h, s⟩, ?_, ?_, ?_⟩
  · exact ⟨.valueError, by decide⟩
  · exact ⟨.assertionError, by decide⟩
  · exact ⟨.assertionError, by decide⟩

/-- C3: the claim says encoding a record with an absent slot writes 16
zero bytes for it; the code instead evaluates `bytes(None)`, which raises
a `TypeError`, so encoding fails on the failing input
`MasterBootRecord(0, [None, None, None, None])`. -/
theorem c3_absent_slot_encode_raises :
    MasterBootRecord.toBytes ⟨some 0, [none, none, none, none]⟩ =
      .error .typeError := by decide

/-- C4: the claim says a 511-byte buffer yields a graceful short-buffer
or argument-error outcome; the code instead propagates a `struct.error`
from unpacking the one-byte marker slice, an unhandled crash. -/
theorem c4_short_buffer_crashes :
    MasterBootRecord.read (List.replicate 511 0) false = .error .structError := by
  decide

/-- C5: for every in-range CHS triple (cylinder in [0,1023], head in
[0,255], sector in [0,63]), encoding succeeds and decoding the three
packed bytes returns the original address. -/
theorem c5_chs_roundtrip (c h s : Nat) (hc : c ≤ 1023) (hh : h ≤ 255) (hs : s ≤ 63) :
    ∃ b, CHSAddress.toBytes ⟨c, h, s⟩ = .ok b ∧ CHSAddress.parse b = ⟨c, h, s⟩ := by
  have hin : (⟨c, h, s⟩ : CHSAddress).inRange = true := by
    simp only [CHSAddress.inRange, Bool.and_eq_true, decide_eq_true_eq]
    omega
  exact ⟨_, chs_toBytes_ok _ hin, chs_parse_inv _ hin⟩

theorem c5_chs_roundtrip_witness :
    ∃ b, CHSAddress.toBytes ⟨1023, 255, 63⟩ = .ok b ∧
      CHSAddress.parse b = ⟨1023, 255, 63⟩ :=
  c5_chs_roundtrip 1023 255 63 (by norm_num) (by norm_num) (by norm_num)

/-- C9: re-encoding the CHS address parsed from any three bytes
reproduces the three bytes exactly, and encoding never fails because
every decoded component is automatically in range. -/
theorem c9_chs_parse_encode (b0 b1 b2 : Nat) (h0 : b0 < 256) (h1 : b1 < 256)
    (h2 : b2 < 256) :
    (CHSAddress.parse [b0, b1, b2]).toBytes = .ok [b0, b1, b2] :=
  chs_parse_then_toBytes b0 b1 b2 h0 h1 h2

theorem c9_chs_parse_encode_witness :
    (CHSAddress.parse [18, 255, 171]).toBytes = .ok [18, 255, 171] :=
  c9_chs_parse_encode 18 255 171 (by norm_num) (by norm_num) (by norm_num)

/-- C7: for every partition entry that is well formed per the data model
(present in-range CHS fields, one-byte type, 32-bit LBA and sector
count), decoding the sixteen-byte encoding yields an entry equal to the
original under Python dataclass equality (`pyEq`: fieldwise, with the
partition type compared by its integer value, as `IntEnum` does). -/
theorem c7_entry_roundtrip (e : PartitionEntry) (hwf : e.wf = true) :
    ∃ bs e2, e.toBytes = .ok bs ∧ PartitionEntry.read bs = .ok (some e2) ∧
      e2.pyEq e := by
  obtain ⟨bs, e2, h1, _, h3, h4⟩ := entry_roundtrip_core e hwf
  exact ⟨bs, e2, h1, h3, h4⟩

theorem c7_entry_roundtrip_witness :
    ∃ bs e2,
      PartitionEntry.toBytes ⟨true, .raw 153, ⟨7⟩, 3, some ⟨2, 1, 9⟩, some ⟨2, 1, 12⟩⟩ =
        .ok bs ∧
      PartitionEntry.read bs = .ok (some e2) ∧
      e2.pyEq ⟨true, .raw 153, ⟨7⟩, 3, some ⟨2, 1, 9⟩, some ⟨2, 1, 12⟩⟩ :=
  c7_entry_roundtrip ⟨true, .raw 153, ⟨7⟩, 3, some ⟨2, 1, 9⟩, some ⟨2, 1, 12⟩⟩ (by decide)

/-- C8: decoding a sixteen-byte entry whose type byte is `0x83` yields
the symbolic `LINUX` member, while type byte `0x99` (unregistered) stays
a raw byte, and re-encoding writes `0x99` back at offset 4. -/
theorem c8_type_mapping :
    (∃ f, PartitionEntry.read [0, 0, 0, 0, 0x83, 0, 0, 0, 0, 0, 0, 0, 0, 0, 0, 0] =
        .ok (some f) ∧ f.partition_type = .member .LINUX) ∧
    (∃ f, PartitionEntry.read [0, 0, 0, 0, 0x99, 0, 0, 0, 0, 0, 0, 0, 0, 0, 0, 0] =
        .ok (some f) ∧ f.partition_type = .raw 0x99 ∧
      ∃ out, f.toBytes = .ok out ∧ out.getD 4 0 = 0x99) := by
  refine ⟨⟨⟨false, .member .LINUX, ⟨0⟩, 0, some ⟨0, 0, 0⟩, some ⟨0, 0, 0⟩⟩,
      by decide, rfl⟩,
    ⟨⟨false, .raw 0x99, ⟨0⟩, 0, some ⟨0, 0, 0⟩, some ⟨0, 0, 0⟩⟩, by decide, rfl,
      [0, 0, 0, 0, 0x99, 0, 0, 0, 0, 0, 0, 0, 0, 0, 0, 0], by decide, rfl⟩⟩

/-- C10: decoding any sixteen bytes and re-encoding reproduces bytes 1
through 15 exactly, with byte 0 collapsed to `0x80` when bit 7 of the
attribute byte is set and `0x00` otherwise. -/
theorem c10_entry_bytes_roundtrip
    (x0 x1 x2 x3 x4 x5 x6 x7 x8 x9 x10 x11 x12 x13 x14 x15 : Nat)
    (h0 : x0 < 256) (h1 : x1 < 256) (h2 : x2 < 256) (h3 : x3 < 256)
    (h4 : x4 < 256) (h5 : x5 < 256) (h6 : x6 < 256) (h7 : x7 < 256)
    (h8 : x8 < 256) (h9 : x9 < 256) (h10 : x10 < 256) (h11 : x11 < 256)
    (h12 : x12 < 256) (h13 : x13 < 256) (h14 : x14 < 256) (h15 : x15 < 256) :
    ∃ f, PartitionEntry.read
        [x0, x1, x2, x3, x4, x5, x6, x7, x8, x9, x10, x11, x12, x13, x14, x15] =
        .ok (some f) ∧
      f.toBytes = .ok ((if x0 &&& 128 ≠ 0 then 128 else 0) ::
        [x1, x2, x3, x4, x5, x6, x7, x8, x9, x10, x11, x12, x13, x14, x15]) :=
  entry_read_then_toBytes_core x0 x1 x2 x3 x4 x5 x6 x7 x8 x9 x10 x11 x12 x13 x14 x15
    h0 h1 h2 h3 h4 h5 h6 h7 h8 h9 h10 h11 h12 h13 h14 h15

theorem c10_entry_bytes_roundtrip_witness :
    ∃ f, PartitionEntry.read
        [199, 1, 2, 3, 153, 4, 5, 6, 7, 8, 9, 10, 11, 12, 13, 14] =
        .ok (some f) ∧
      f.toBytes = .ok ((if 199 &&& 128 ≠ 0 then 128 else 0) ::
        [1, 2, 3, 153, 4, 5, 6, 7, 8, 9, 10, 11, 12, 13, 14]) :=
  c10_entry_bytes_roundtrip 199 1 2 3 153 4 5 6 7 8 9 10 11 12 13 14
    (by norm_num) (by norm_num) (by norm_num) (by norm_num) (by norm_num)
    (by norm_num) (by norm_num) (by norm_num) (by norm_num) (by norm_num)
    (by norm_num) (by norm_num) (by norm_num) (by norm_num) (by norm_num)
    (by norm_num)

/-- C6: for every 512-byte buffer whose two bytes at offset `0x1FE` are
not `0x55, 0xAA`, decoding with validation enabled returns absent
(without raising) and decoding with `ignore_valid_marker` returns a
populated record; and for every 512-byte buffer ending in `0x55, 0xAA`,
decoding with validation enabled returns a populated record. -/
theorem c6_signature_gate (data : List Nat) (hlen : data.length = 512)
    (hbytes : ∀ x ∈ data, x < 256) :
    (¬ (data.getD 510 0 = 0x55 ∧ data.getD 511 0 = 0xAA) →
      MasterBootRecord.read data false = .ok none) ∧
    (¬ (data.getD 510 0 = 0x55 ∧ data.getD 511 0 = 0xAA) →
      ∃ m, MasterBootRecord.read data true = .ok (some m)) ∧
    ((data.getD 510 0 = 0x55 ∧ data.getD 511 0 = 0xAA) →
      ∃ m, MasterBootRecord.read data false = .ok (some m)) := by
  obtain ⟨u, f0, f1, f2, f3, hrf⟩ := mbr_read_structure data hlen false
  obtain ⟨v, g0, g1, g2, g3, hrt⟩ := mbr_read_structure data hlen true
  have h510 := getD_mem_lt data 510 (by omega) hbytes
  have h511 := getD_mem_lt data 511 (by omega) hbytes
  refine ⟨?_, ?_, ?_⟩
  · intro hbad
    have hm : (data.getD 510 0 + 256 * data.getD 511 0 == VALID_MARKER) = false := by
      simp only [VALID_MARKER, beq_eq_false_iff_ne, ne_eq]
      intro hsum
      exact hbad ⟨by omega, by omega⟩
    rw [hrf, hm]
    simp
  · intro _
    refine ⟨⟨some v, [some g0, some g1, some g2, some g3]⟩, ?_⟩
    rw [hrt]
    simp
  · intro hgood
    have hm : (data.getD 510 0 + 256 * data.getD 511 0 == VALID_MARKER) = true := by
      simp only [VALID_MARKER, beq_iff_eq]
      omega
    refine ⟨⟨some u, [some f0, some f1, some f2, some f3]⟩, ?_⟩
    rw [hrf, hm]
    simp

theorem c6_signature_gate_witness :
    (¬ ((List.replicate 512 0).getD 510 0 = 0x55 ∧
        (List.replicate 512 0).getD 511 0 = 0xAA) →
      MasterBootRecord.read (List.replicate 512 0) false = .ok none) ∧
    (¬ ((List.replicate 512 0).getD 510 0 = 0x55 ∧
        (List.replicate 512 0).getD 511 0 = 0xAA) →
      ∃ m, MasterBootRecord.read (List.replicate 512 0) true = .ok (some m)) ∧
    (((List.replicate 512 0).getD 510 0 = 0x55 ∧
        (List.replicate 512 0).getD 511 0 = 0xAA) →
      ∃ m, MasterBootRecord.read (List.replicate 512 0) false = .ok (some m)) :=
  c6_signature_gate (List.replicate 512 0) (by simp)
    (fun x hx => by rw [List.eq_of_mem_replicate hx]; norm_num)

/-- C1: the claim as stated (any optional disk signature) fails: a record
with an absent signature encodes with signature 0, so decoding the
encoder's output returns a record whose signature `0` differs from the
original `None`. -/
theorem c1_mbr_roundtrip_counterexample :
    (MasterBootRecord.toBytes
        ⟨none, [some zeroEntry, some zeroEntry, some zeroEntry, some zeroEntry]⟩).bind
      (fun b => MasterBootRecord.read b false) =
      .ok (some ⟨some 0, [some zeroEntry, some zeroEntry, some zeroEntry, some zeroEntry]⟩) ∧
    ¬ MasterBootRecord.pyEq
      ⟨some 0, [some zeroEntry, some zeroEntry, some zeroEntry, some zeroEntry]⟩
      ⟨none, [some zeroEntry, some zeroEntry, some zeroEntry, some zeroEntry]⟩ := by
  constructor
  · decide
  · intro hEq
    exact Option.noConfusion hEq.1

/-- C1 (amended): for every record whose disk signature is present (an
unsigned 32-bit value) and whose four slots are present well-formed
entries, encoding succeeds and decoding the encoder's own output with
signature validation enabled returns a populated record that is
Python-equal to the original in signature and partition slots. -/
theorem c1_mbr_roundtrip (u : Nat) (e0 e1 e2 e3 : PartitionEntry)
    (hu : u < 4294967296) (h0 : e0.wf = true) (h1 : e1.wf = true)
    (h2 : e2.wf = true) (h3 : e3.wf = true) :
    ∃ bs m2,
      MasterBootRecord.toBytes ⟨some u, [some e0, some e1, some e2, some e3]⟩ = .ok bs ∧
      MasterBootRecord.read bs false = .ok (some m2) ∧
      m2.pyEq ⟨some u, [some e0, some e1, some e2, some e3]⟩ :=
  mbr_roundtrip_core u e0 e1 e2 e3 hu h0 h1 h2 h3

theorem c1_mbr_roundtrip_witness :
    ∃ bs m2,
      MasterBootRecord.toBytes
        ⟨some 305419896, [some zeroEntry, some zeroEntry, some zeroEntry, some zeroEntry]⟩ =
        .ok bs ∧
      MasterBootRecord.read bs false = .ok (some m2) ∧
      m2.pyEq ⟨some 305419896,
        [some zeroEntry, some zeroEntry, some zeroEntry, some zeroEntry]⟩ :=
  c1_mbr_roundtrip 305419896 zeroEntry zeroEntry zeroEntry zeroEntry
    (by norm_num) (by decide) (by decide) (by decide) (by decide)
